import Mathlib

/-!
Verification development for the azure-k8s-metrics-adapter repository.

The repository's visible source is `src/main.go` (process wiring: cache
construction, controller/provider wiring, worker startup, subscription-id
discovery).  The core packages (`pkg/metriccache`, `pkg/controller`,
`pkg/provider`) are not part of the provided source tree, so the Metric
Cache, Reconciler and Query Resolver are modelled from the specification
(§3, §4.1–§4.3); each such definition carries a doc comment starting with
`Modelled from the spec:`.  Everything taken from `src/main.go` is
transcribed from the Go source directly.
-/

namespace Adapter

/-- Modelled from the spec: a group/resource pair identifying the kind of the
target resource of a custom-metric declaration (spec §3). -/
structure GroupResource where
  group : String
  resource : String
deriving DecidableEq, Repr

/-- Modelled from the spec: a label query.  The spec treats selector syntax
abstractly and only requires that malformed selector syntax is detectable at
derivation time (§4.2), so a selector is either a valid list of
equality requirements or a malformed raw string. -/
inductive LabelSelector where
  | valid (requirements : List (String × String))
  | malformed (raw : String)
deriving DecidableEq, Repr

/-- Modelled from the spec: the target of a custom-metric declaration is
either a fixed target name or a label selector (spec §3: "targetName or
targetLabelSelector"). -/
inductive Target where
  | byName (name : String)
  | bySelector (sel : LabelSelector)
deriving DecidableEq, Repr

/-- Modelled from the spec: an ExternalMetricDeclaration record (spec §3). -/
structure ExternalMetricDeclaration where
  ns : String
  name : String
  externalMetricName : String
  metricSelector : LabelSelector
  cloudQuery : String
deriving DecidableEq, Repr

/-- Modelled from the spec: a CustomMetricDeclaration record (spec §3). -/
structure CustomMetricDeclaration where
  ns : String
  name : String
  targetGroupResource : GroupResource
  target : Target
  metricName : String
  cloudQuery : String
deriving DecidableEq, Repr

/-- Modelled from the spec: the tagged union over the two declaration kinds
(spec §9: "represent as a tagged union/variant with a discriminant field"). -/
inductive Declaration where
  | external (d : ExternalMetricDeclaration)
  | custom (d : CustomMetricDeclaration)
deriving DecidableEq, Repr

/-- Modelled from the spec: cache keys.  "Key for external entries =
(namespace, externalMetricName); key for custom entries = (namespace,
targetGroupResource, metricName)" (spec §3). -/
inductive CacheKey where
  | external (ns externalMetricName : String)
  | custom (ns : String) (gr : GroupResource) (metricName : String)
deriving DecidableEq, Repr

/-- Modelled from the spec: a Cache Entry value, "the minimal data needed to
perform a live fetch: the opaque cloudQuery plus the selector/target used for
match-time filtering" (spec §3). -/
inductive EntryData where
  | external (cloudQuery : String) (sel : List (String × String))
  | customByName (cloudQuery : String) (targetName : String)
  | customBySelector (cloudQuery : String) (sel : List (String × String))
deriving DecidableEq, Repr

/-- Modelled from the spec: the Metric Cache, the aggregate of all Cache
Entries indexed by cache key (spec §3).  Represented as an association list;
uniqueness of keys is a proved invariant of the reconciler-maintained states,
not baked into the type. -/
abbrev Cache := List (CacheKey × EntryData)

/-- Modelled from the spec: the cache key of a declaration (spec §3). -/
def keyOf : Declaration → CacheKey
  | .external d => .external d.ns d.externalMetricName
  | .custom d => .custom d.ns d.targetGroupResource d.metricName

/-- Modelled from the spec: derivation of a Cache Entry from a Declaration —
a deterministic pure function that fails on validation errors such as missing
required fields or malformed selector syntax (spec §4.2). -/
def deriveEntry : Declaration → Except String EntryData
  | .external d =>
    if d.externalMetricName = "" then .error "missing externalMetricName"
    else
      match d.metricSelector with
      | .malformed raw => .error ("malformed metricSelector: " ++ raw)
      | .valid rs => .ok (.external d.cloudQuery rs)
  | .custom d =>
    if d.metricName = "" then .error "missing metricName"
    else
      match d.target with
      | .byName n =>
        if n = "" then .error "missing targetName" else .ok (.customByName d.cloudQuery n)
      | .bySelector (.malformed raw) => .error ("malformed targetLabelSelector: " ++ raw)
      | .bySelector (.valid rs) => .ok (.customBySelector d.cloudQuery rs)

/-- Whether derivation of a declaration succeeds. -/
def derivesOk (d : Declaration) : Bool :=
  match deriveEntry d with
  | .ok _ => true
  | .error _ => false

/-- Remove every binding for key `k` (helper of `Upsert` and `Remove`). -/
def eraseKey : Cache → CacheKey → Cache
  | [], _ => []
  | p :: c, k => if p.1 = k then eraseKey c k else p :: eraseKey c k

/-- Modelled from the spec: `Upsert(entry)` inserts or replaces the entry at
its key (spec §4.1). -/
def Upsert (c : Cache) (k : CacheKey) (v : EntryData) : Cache :=
  (k, v) :: eraseKey c k

/-- Modelled from the spec: `Remove(key)` deletes the entry at key if
present, no-op otherwise (spec §4.1). -/
def Remove (c : Cache) (k : CacheKey) : Cache :=
  eraseKey c k

/-- Modelled from the spec: `GetByKey(key) -> entry | NotFound` exact lookup
(spec §4.1). -/
def GetByKey : Cache → CacheKey → Option EntryData
  | [], _ => none
  | p :: c, k => if p.1 = k then some p.2 else GetByKey c k

/-- Modelled from the spec: equality-requirement selector matching — every
requirement key must be present in the labels with the required value. -/
def matchesLabels (reqs labels : List (String × String)) : Bool :=
  reqs.all (fun kv => decide (labels.lookup kv.1 = some kv.2))

/-- Does this entry participate in selector-based custom-metric matching
against the candidate's labels (spec §4.1: "for custom metrics declared with
a label selector instead of a fixed target name")? -/
def entrySelectorMatches (e : EntryData) (labels : List (String × String)) : Bool :=
  match e with
  | .customBySelector _ rs => matchesLabels rs labels
  | _ => false

/-- The entries of the cache stored at key `k` whose selector matches the
candidate labels (the scan underlying `MatchBySelector`). -/
def customMatches : Cache → CacheKey → List (String × String) → List EntryData
  | [], _, _ => []
  | p :: c, k, labels =>
    if p.1 = k ∧ entrySelectorMatches p.2 labels = true then
      p.2 :: customMatches c k labels
    else
      customMatches c k labels

/-- Modelled from the spec: outcome of `MatchBySelector` (spec §4.1). -/
inductive MatchResult where
  | notFound
  | found (e : EntryData)
  | ambiguous (winner : EntryData)
deriving DecidableEq, Repr

/-- Modelled from the spec: `MatchBySelector(namespace, groupResource,
metricName, candidate labels) -> entry | NotFound | Ambiguous` (spec §4.1).
More than one matching declaration in the same namespace/groupResource/
metricName is a configuration conflict reported as `ambiguous`, with a
deterministic winner: the first matching entry in the cache's order (a pure
function of the inputs, hence identical across repeated calls). -/
def MatchBySelector (c : Cache) (ns : String) (gr : GroupResource)
    (metricName : String) (labels : List (String × String)) : MatchResult :=
  match customMatches c (.custom ns gr metricName) labels with
  | [] => .notFound
  | [e] => .found e
  | e :: _ :: _ => .ambiguous e

/-- Modelled from the spec: a FetchSpec, "the resolved, opaque instruction
handed to the external fetch capability" (spec glossary): the opaque
cloudQuery plus resolved selector/target. -/
structure FetchSpec where
  cloudQuery : String
  resolvedSelector : List (String × String)
  resolvedTarget : Option String
deriving DecidableEq, Repr

/-- The FetchSpec carried by a cache entry. -/
def fetchOf : EntryData → FetchSpec
  | .external cq rs => ⟨cq, rs, none⟩
  | .customByName cq tn => ⟨cq, [], some tn⟩
  | .customBySelector cq rs => ⟨cq, rs, none⟩

/-- Modelled from the spec: the two inbound query shapes (spec §6).  For a
custom query the target resource's labels are a passed-in input (spec §4.3). -/
inductive Query where
  | external (ns metricName : String) (labelSelector : List (String × String))
  | custom (ns : String) (gr : GroupResource) (targetName : String)
      (metricName : String) (targetLabels : List (String × String))
deriving DecidableEq, Repr

/-- The exact cache key addressed by a query. -/
def queryKey : Query → CacheKey
  | .external ns mn _ => .external ns mn
  | .custom ns gr _ mn _ => .custom ns gr mn

/-- Modelled from the spec: outcome of `Resolve` — `FetchSpec | NotFound |
Ambiguous` (spec §4.3); there is no error or crash outcome. -/
inductive ResolveResult where
  | fetchSpec (fs : FetchSpec)
  | notFound
  | ambiguous (fs : FetchSpec)
deriving DecidableEq, Repr

/-- Modelled from the spec: `Resolve(query)` (spec §4.3).  External queries
use exact `GetByKey`, with the query's label selector passed through into the
FetchSpec.  Custom queries use exact `GetByKey` when a direct-target entry is
present and otherwise fall back to `MatchBySelector` over the target's
labels. -/
def Resolve (c : Cache) : Query → ResolveResult
  | .external ns mn sel =>
    match GetByKey c (.external ns mn) with
    | some (.external cq _) => .fetchSpec ⟨cq, sel, none⟩
    | _ => .notFound
  | .custom ns gr _tn mn labels =>
    match GetByKey c (.custom ns gr mn) with
    | some (.customByName cq tn) => .fetchSpec ⟨cq, [], some tn⟩
    | _ =>
      match MatchBySelector c ns gr mn labels with
      | .notFound => .notFound
      | .found e => .fetchSpec (fetchOf e)
      | .ambiguous e => .ambiguous (fetchOf e)

/-- Modelled from the spec: the tag of a change notification (spec §4.2). -/
inductive EventKind where
  | added
  | updated
  | deleted
deriving DecidableEq, Repr

/-- Modelled from the spec: a change notification from the Declaration Store
(spec §4.2). -/
structure Event where
  kind : EventKind
  decl : Declaration
deriving DecidableEq, Repr

/-- Modelled from the spec: a diagnostic emitted to the observability sink
(spec §7(a)). -/
inductive Diagnostic where
  | validationError (key : CacheKey) (msg : String)
deriving DecidableEq, Repr

/-- Modelled from the spec: one step of the Reconciler loop (spec §4.2).
Added/Updated derive the entry and Upsert it; a validation failure writes
nothing and emits a diagnostic; Deleted computes the same key and Removes
it. -/
def processEvent (c : Cache) (e : Event) : Cache × List Diagnostic :=
  match e.kind with
  | .deleted => (Remove c (keyOf e.decl), [])
  | _ =>
    match deriveEntry e.decl with
    | .ok v => (Upsert c (keyOf e.decl) v, [])
    | .error m => (c, [.validationError (keyOf e.decl) m])

/-- The cache after one Reconciler step. -/
def step (c : Cache) (e : Event) : Cache :=
  (processEvent c e).1

/-- Modelled from the spec: the Reconciler consuming an ordered stream of
notifications (spec §4.2). -/
def reconcile (c : Cache) : List Event → Cache
  | [] => c
  | e :: es => reconcile (step c e) es

/-- At most one live Cache Entry per key (spec §3 invariant). -/
def keysNodup (c : Cache) : Prop :=
  (c.map Prod.fst).Nodup

/-- The entry the cache holds at a key after the final event of a sequence
for that key: nothing if the final event was Deleted or failed validation,
otherwise the entry derived from the final event's declaration. -/
def expectedFinal (e : Event) : Option EntryData :=
  match e.kind, deriveEntry e.decl with
  | .deleted, _ => none
  | _, .ok v => some v
  | _, .error _ => none

/-- Modelled from the spec: `NewMetricCache` constructs the cache "created
empty at process start" (spec §3; the metriccache package itself is not part
of the provided source, only its caller `src/main.go` line 42). -/
def NewMetricCache : Cache := []

/-- The collaborators in `src/main.go` that receive the metric cache
reference: the controller handler (`controller.NewHandler(..., metricsCache)`,
lines 90–92, reached from line 45) and the Azure provider
(`provider.NewAzureProvider(..., metricsCache)`, line 74, reached from
line 50). -/
inductive Collaborator where
  | controllerHandler
  | azureProvider
deriving DecidableEq, Repr

/-- How a collaborator accesses the cache.  Modelled from the spec for the
packages missing from the source tree: the cache is "populated/mutated only
by the Reconciler; read by the Query Resolver" (spec §3). -/
inductive CacheAccess where
  | writer
  | reader
deriving DecidableEq, Repr

/-- The steps of `main` in `src/main.go` (lines 27–54), in program order,
including the bodies of `newController` (lines 79–98) and
`setupAzureProvider` (lines 56–77) at their call sites. -/
inductive MainStep where
  | initLogs
  | setGOMAXPROCS
  | parseFlags
  | makeStopCh
  | allocMetricCache
  | passCacheTo (c : Collaborator) (a : CacheAccess)
  | spawnInformerFactoryStart
  | spawnControllerRun (workers : Nat)
  | runServer
deriving DecidableEq, Repr

/-- Transcription of `main` from `src/main.go`: logs are initialised,
GOMAXPROCS set, flags parsed, the stop channel made, the single metric cache
allocated (line 42), `newController` passes the cache to the handler
(line 45 → lines 90–92), the informer factory and `controller.Run(2, ...)`
are spawned as goroutines (lines 46–47), `setupAzureProvider` passes the
cache to the provider (line 50 → line 74), and `cmd.Run` serves queries
(line 51). -/
def mainBody : List MainStep :=
  [.initLogs, .setGOMAXPROCS, .parseFlags, .makeStopCh,
   .allocMetricCache,
   .passCacheTo .controllerHandler .writer,
   .spawnInformerFactoryStart,
   .spawnControllerRun 2,
   .passCacheTo .azureProvider .reader,
   .runServer]

/-- Number of metric-cache allocations performed by a step list. -/
def cacheAllocCount (steps : List MainStep) : Nat :=
  (steps.filter (fun s => decide (s = .allocMetricCache))).length

/-- The collaborators a step list hands the cache reference to, in order. -/
def cacheRecipients (steps : List MainStep) : List Collaborator :=
  steps.filterMap (fun s =>
    match s with
    | .passCacheTo c _ => some c
    | _ => none)

/-- The collaborators a step list hands the cache to with write access. -/
def cacheWriters (steps : List MainStep) : List Collaborator :=
  steps.filterMap (fun s =>
    match s with
    | .passCacheTo c .writer => some c
    | _ => none)

/-- Total number of controller worker goroutines started by a step list
(`controller.Run(2, time.Second, stopCh)` starts `2`). -/
def controllerWorkers (steps : List MainStep) : Nat :=
  (steps.filterMap (fun s =>
    match s with
    | .spawnControllerRun w => some w
    | _ => none)).foldl (· + ·) 0

/-- Startup-ordering events.  `spawnController` is the `go controller.Run`
statement (`src/main.go` line 47); `initialSyncDone` is the completion of the
Reconciler's initial full synchronization pass inside the spawned controller
task (modelled from the spec §4.2, the controller package being absent from
the source tree); `acceptQuery` is the metric server accepting its first
query after `cmd.Run` (line 51). -/
inductive StartupEv where
  | spawnController
  | initialSyncDone
  | acceptQuery
deriving DecidableEq, Repr

/-- `a` occurs strictly before `b` in the schedule `s`. -/
def eventBefore (s : List StartupEv) (a b : StartupEv) : Bool :=
  decide (s.indexOf a < s.indexOf b)

/-- The schedules `src/main.go` permits: each event occurs exactly once, the
spawn precedes the server accepting queries (program order in `main`: line 47
precedes line 51), and the spawn precedes the spawned controller's initial
synchronization.  `main` creates no ordering between `initialSyncDone` and
`acceptQuery`: it joins neither goroutine before calling `cmd.Run`. -/
def validStartupSchedule (s : List StartupEv) : Bool :=
  decide (s.Nodup) &&
  decide (StartupEv.spawnController ∈ s) &&
  decide (StartupEv.initialSyncDone ∈ s) &&
  decide (StartupEv.acceptQuery ∈ s) &&
  eventBefore s .spawnController .acceptQuery &&
  eventBefore s .spawnController .initialSyncDone

/-- A schedule permitted by `src/main.go` in which the server accepts a
query before the initial synchronization completes. -/
def coldStartSchedule : List StartupEv :=
  [.spawnController, .acceptQuery, .initialSyncDone]

/-- A schedule permitted by `src/main.go` in which the initial
synchronization completes before the first query. -/
def warmStartSchedule : List StartupEv :=
  [.spawnController, .initialSyncDone, .acceptQuery]

/-- The Azure config returned by `instancemetadata.GetAzureConfig`
(`src/main.go` line 106); only the subscription id is consumed. -/
structure AzureConfig where
  subscriptionID : String
deriving DecidableEq, Repr

/-- The log statements `getDefaultSubscriptionID` can emit (`src/main.go`
lines 104, 108, 115); `fatal` models `glog.Fatalf`, which this function never
calls (it appears elsewhere in `main.go`). -/
inductive LogEvent where
  | infoLookupViaInstanceMetadata
  | errorUnableToGetAzureConfig (msg : String)
  | infoSubscriptionNotSet
  | fatal (msg : String)
deriving DecidableEq, Repr

/-- The external inputs of `getDefaultSubscriptionID`: the value of the
`SUBSCRIPTION_ID` environment variable (`""` when unset, as in Go's
`os.Getenv`) and the result of `instancemetadata.GetAzureConfig()` — the
returned config together with the optional error. -/
structure SubIDEnv where
  envSubscriptionID : String
  azureConfigResult : AzureConfig × Option String
deriving DecidableEq, Repr

/-- Transcription of `getDefaultSubscriptionID` (`src/main.go` lines
100–119): use `SUBSCRIPTION_ID` if set; otherwise log the lookup, call
`GetAzureConfig`, log (without aborting) any error, and take the returned
config's subscription id; finally log if the result is still empty.  The
function returns normally in every case. -/
def getDefaultSubscriptionID (env : SubIDEnv) : String × List LogEvent :=
  let fromEnv := env.envSubscriptionID
  let looked :=
    if fromEnv = "" then
      (env.azureConfigResult.1.subscriptionID,
        LogEvent.infoLookupViaInstanceMetadata ::
          (match env.azureConfigResult.2 with
           | some m => [LogEvent.errorUnableToGetAzureConfig m]
           | none => []))
    else
      (fromEnv, [])
  if looked.1 = "" then
    (looked.1, looked.2 ++ [LogEvent.infoSubscriptionNotSet])
  else
    looked

/-! ### Helper lemmas about the cache operations -/

theorem getByKey_eraseKey_self (c : Cache) (k : CacheKey) :
    GetByKey (eraseKey c k) k = none := by
  induction c with
  | nil => rfl
  | cons p c ih =>
    by_cases h : p.1 = k
    · simp [eraseKey, h, ih]
    · simp [eraseKey, GetByKey, h, ih]

theorem getByKey_upsert_self (c : Cache) (k : CacheKey) (v : EntryData) :
    GetByKey (Upsert c k v) k = some v := by
  simp [Upsert, GetByKey]

theorem mem_eraseKey {c : Cache} {k : CacheKey} {p : CacheKey × EntryData}
    (h : p ∈ eraseKey c k) : p ∈ c ∧ p.1 ≠ k := by
  induction c with
  | nil => simp [eraseKey] at h
  | cons q c ih =>
    by_cases hq : q.1 = k
    · simp only [eraseKey, if_pos hq] at h
      exact ⟨List.mem_cons_of_mem _ (ih h).1, (ih h).2⟩
    · simp only [eraseKey, if_neg hq, List.mem_cons] at h
      rcases h with rfl | h
      · exact ⟨List.mem_cons_self _ _, hq⟩
      · exact ⟨List.mem_cons_of_mem _ (ih h).1, (ih h).2⟩

theorem keys_eraseKey_self {c : Cache} {k : CacheKey} :
    k ∉ (eraseKey c k).map Prod.fst := by
  intro hm
  rcases List.mem_map.mp hm with ⟨p, hp, hpk⟩
  exact (mem_eraseKey hp).2 hpk

theorem keysNodup_eraseKey {c : Cache} (k : CacheKey) (h : keysNodup c) :
    keysNodup (eraseKey c k) := by
  induction c with
  | nil => exact h
  | cons q c ih =>
    rw [keysNodup, List.map_cons, List.nodup_cons] at h
    by_cases hq : q.1 = k
    · simp only [eraseKey, if_pos hq]
      exact ih h.2
    · simp only [eraseKey, if_neg hq]
      rw [keysNodup, List.map_cons, List.nodup_cons]
      refine ⟨fun hm => ?_, ih h.2⟩
      rcases List.mem_map.mp hm with ⟨p, hp, hpk⟩
      exact h.1 (List.mem_map.mpr ⟨p, (mem_eraseKey hp).1, hpk⟩)

theorem keysNodup_Upsert {c : Cache} (k : CacheKey) (v : EntryData)
    (h : keysNodup c) : keysNodup (Upsert c k v) := by
  rw [Upsert, keysNodup, List.map_cons, List.nodup_cons]
  exact ⟨keys_eraseKey_self, keysNodup_eraseKey k h⟩

theorem keysNodup_step (c : Cache) (e : Event) (h : keysNodup c) :
    keysNodup (step c e) := by
  cases hk : e.kind with
  | deleted =>
    simp only [step, processEvent, hk, Remove]
    exact keysNodup_eraseKey _ h
  | added =>
    cases hd : deriveEntry e.decl with
    | ok v =>
      simp only [step, processEvent, hk, hd]
      exact keysNodup_Upsert _ _ h
    | error m => simpa only [step, processEvent, hk, hd] using h
  | updated =>
    cases hd : deriveEntry e.decl with
    | ok v =>
      simp only [step, processEvent, hk, hd]
      exact keysNodup_Upsert _ _ h
    | error m => simpa only [step, processEvent, hk, hd] using h

theorem keysNodup_reconcile (c : Cache) (es : List Event) (h : keysNodup c) :
    keysNodup (reconcile c es) := by
  induction es generalizing c with
  | nil => exact h
  | cons e es ih => exact ih (step c e) (keysNodup_step c e h)

theorem reconcile_append (c : Cache) (es es' : List Event) :
    reconcile c (es ++ es') = reconcile (reconcile c es) es' := by
  induction es generalizing c with
  | nil => rfl
  | cons e es ih => simp [reconcile, ih]

theorem getByKey_step_self (c : Cache) (e : Event)
    (hv : e.kind = .deleted ∨ derivesOk e.decl = true) :
    GetByKey (step c e) (keyOf e.decl) = expectedFinal e := by
  cases hk : e.kind with
  | deleted =>
    simp only [step, processEvent, hk, Remove, expectedFinal]
    exact getByKey_eraseKey_self c (keyOf e.decl)
  | added =>
    cases hd : deriveEntry e.decl with
    | ok v =>
      simp only [step, processEvent, hk, hd, expectedFinal]
      exact getByKey_upsert_self _ _ _
    | error m =>
      rcases hv with hv | hv
      · rw [hk] at hv; cases hv
      · rw [derivesOk, hd] at hv; cases hv
  | updated =>
    cases hd : deriveEntry e.decl with
    | ok v =>
      simp only [step, processEvent, hk, hd, expectedFinal]
      exact getByKey_upsert_self _ _ _
    | error m =>
      rcases hv with hv | hv
      · rw [hk] at hv; cases hv
      · rw [derivesOk, hd] at hv; cases hv

theorem eraseKey_eraseKey (c : Cache) (k : CacheKey) :
    eraseKey (eraseKey c k) k = eraseKey c k := by
  induction c with
  | nil => rfl
  | cons p c ih =>
    by_cases h : p.1 = k
    · simp [eraseKey, h, ih]
    · simp [eraseKey, h, ih]

theorem customMatches_empty_of_not_found {c : Cache} {k : CacheKey}
    (h : GetByKey c k = none) (labels : List (String × String)) :
    customMatches c k labels = [] := by
  induction c with
  | nil => rfl
  | cons p c ih =>
    by_cases hp : p.1 = k
    · exfalso
      simp only [GetByKey, if_pos hp] at h
      cases h
    · have h' : GetByKey c k = none := by
        simp only [GetByKey, if_neg hp] at h
        exact h
      simp [customMatches, hp, ih h']

/-! ### Claim theorems -/

/-- Claim C1: for every sequence of Added/Updated/Deleted events whose final
event addresses key `keyOf e.decl` (and passes validation unless it is a
delete), the cache state after the Reconciler processes the sequence holds,
at that key, exactly the state derived from the final event — the derived
entry, or no entry when the final event was Deleted — regardless of every
earlier event; and key-uniqueness (at most one live Cache Entry per key) is
preserved at every instant, each instant being `reconcile c es` for some
prefix `es`. -/
theorem reconcile_last_writer_wins (c : Cache) (es : List Event) (e : Event)
    (hv : e.kind = .deleted ∨ derivesOk e.decl = true)
    (hn : keysNodup c) :
    GetByKey (reconcile c (es ++ [e])) (keyOf e.decl) = expectedFinal e
    ∧ keysNodup (reconcile c (es ++ [e])) := by
  have h1 : reconcile c (es ++ [e]) = step (reconcile c es) e := by
    rw [reconcile_append]
    rfl
  rw [h1]
  exact ⟨getByKey_step_self _ e hv,
    keysNodup_step _ e (keysNodup_reconcile c es hn)⟩

/-- Concrete run of `reconcile_last_writer_wins`: an Added then an Updated
event for the same external-metric key leave exactly the entry of the last
event in the cache. -/
def eqEvent1 : Event := ⟨.added, .external ⟨"default", "q1", "queue-depth", .valid [], "Q1"⟩⟩

/-- Second event of the `reconcile_last_writer_wins` witness run. -/
def eqEvent2 : Event := ⟨.updated, .external ⟨"default", "q1", "queue-depth", .valid [], "Q2"⟩⟩

/-- Witness for claim C1 at a concrete event sequence. -/
theorem reconcile_last_writer_wins_witness :
    GetByKey (reconcile NewMetricCache ([eqEvent1] ++ [eqEvent2])) (keyOf eqEvent2.decl)
        = some (.external "Q2" [])
    ∧ keysNodup (reconcile NewMetricCache ([eqEvent1] ++ [eqEvent2])) := by
  have h := reconcile_last_writer_wins NewMetricCache [eqEvent1] eqEvent2
    (Or.inr (by decide)) (by simp [NewMetricCache, keysNodup])
  exact ⟨h.1.trans (by decide), h.2⟩

/-- Claim C5: processing the same notification twice leaves the Metric Cache
in exactly the state of processing it once — the Reconciler step is
idempotent for every cache state and every event, so at-least-once delivery
never corrupts cache state. -/
theorem processEvent_idempotent (c : Cache) (e : Event) :
    step (step c e) e = step c e := by
  cases hk : e.kind with
  | deleted => simp [step, processEvent, hk, Remove, eraseKey_eraseKey]
  | added =>
    cases hd : deriveEntry e.decl with
    | ok v => simp [step, processEvent, hk, hd, Upsert, eraseKey, eraseKey_eraseKey]
    | error m => simp [step, processEvent, hk, hd]
  | updated =>
    cases hd : deriveEntry e.decl with
    | ok v => simp [step, processEvent, hk, hd, Upsert, eraseKey, eraseKey_eraseKey]
    | error m => simp [step, processEvent, hk, hd]

/-- Claim C6: when derivation of a declaration fails validation, the
Reconciler writes nothing — the cache it returns is exactly the previous
cache, so any previous entry for that key is untouched — while a validation
diagnostic is emitted for the observability sink, and the loop continues:
reconciling the failing event followed by any remaining events yields the
same cache as reconciling the remaining events alone. -/
theorem invalid_declaration_skipped (c : Cache) (kind : EventKind)
    (d : Declaration) (msg : String) (rest : List Event)
    (hkind : kind ≠ .deleted)
    (herr : deriveEntry d = .error msg) :
    processEvent c ⟨kind, d⟩ = (c, [.validationError (keyOf d) msg])
    ∧ reconcile c (⟨kind, d⟩ :: rest) = reconcile c rest := by
  have hp : processEvent c ⟨kind, d⟩ = (c, [.validationError (keyOf d) msg]) := by
    cases kind with
    | deleted => exact absurd rfl hkind
    | added => simp [processEvent, herr]
    | updated => simp [processEvent, herr]
  refine ⟨hp, ?_⟩
  show reconcile (step c ⟨kind, d⟩) rest = reconcile c rest
  rw [step, hp]

/-- A declaration whose selector is syntactically malformed, used to witness
claim C6. -/
def badDecl : Declaration :=
  .custom ⟨"default", "bad", ⟨"apps", "deployments"⟩, .bySelector (.malformed "app=="), "cpu", "Q"⟩

/-- Witness for claim C6 at a concrete malformed declaration. -/
theorem invalid_declaration_skipped_witness :
    processEvent [] ⟨.added, badDecl⟩
        = ([], [.validationError (keyOf badDecl) "malformed targetLabelSelector: app=="])
    ∧ reconcile [] (⟨.added, badDecl⟩ :: []) = reconcile [] [] :=
  invalid_declaration_skipped [] .added badDecl
    "malformed targetLabelSelector: app==" [] (by decide) rfl

/-- Claim C7: a query whose key has no corresponding Cache Entry resolves to
the typed `notFound` outcome.  `Resolve` is a total function into
`ResolveResult`, a type with no error constructor, so no input produces an
internal error or a crash. -/
theorem resolve_missing_key_notFound (c : Cache) (q : Query)
    (h : GetByKey c (queryKey q) = none) :
    Resolve c q = .notFound := by
  cases q with
  | external ns mn sel =>
    have h' : GetByKey c (.external ns mn) = none := h
    simp [Resolve, h']
  | custom ns gr tn mn labels =>
    have h' : GetByKey c (.custom ns gr mn) = none := h
    have hm := customMatches_empty_of_not_found h' labels
    simp [Resolve, h', MatchBySelector, hm]

/-- Witness for claim C7 at the empty cache. -/
theorem resolve_missing_key_notFound_witness :
    Resolve [] (.external "default" "queue-depth" []) = .notFound :=
  resolve_missing_key_notFound [] (.external "default" "queue-depth" []) rfl

/-- Claim C4: two CustomMetricDeclarations in the same
namespace/groupResource/metricName whose selectors both match a candidate's
labels both derive to selector entries, and on a cache holding both entries
`MatchBySelector` — and hence `Resolve` — returns the `ambiguous` outcome,
which is distinct from `notFound`; the winner is the deterministic first
matching entry (`MatchBySelector` is a pure function of its inputs, so
repeated calls with the same inputs return the same winner, never crashing
or silently picking differently). -/
theorem matchBySelector_conflict_ambiguous (ns n1 n2 mn cq1 cq2 tn : String)
    (gr : GroupResource) (rs1 rs2 labels : List (String × String))
    (hmn : mn ≠ "")
    (hm1 : matchesLabels rs1 labels = true)
    (hm2 : matchesLabels rs2 labels = true) :
    deriveEntry (.custom ⟨ns, n1, gr, .bySelector (.valid rs1), mn, cq1⟩)
        = .ok (.customBySelector cq1 rs1)
    ∧ deriveEntry (.custom ⟨ns, n2, gr, .bySelector (.valid rs2), mn, cq2⟩)
        = .ok (.customBySelector cq2 rs2)
    ∧ MatchBySelector
        [(CacheKey.custom ns gr mn, .customBySelector cq1 rs1),
         (CacheKey.custom ns gr mn, .customBySelector cq2 rs2)] ns gr mn labels
        = .ambiguous (.customBySelector cq1 rs1)
    ∧ MatchBySelector
        [(CacheKey.custom ns gr mn, .customBySelector cq1 rs1),
         (CacheKey.custom ns gr mn, .customBySelector cq2 rs2)] ns gr mn labels
        ≠ .notFound
    ∧ Resolve
        [(CacheKey.custom ns gr mn, .customBySelector cq1 rs1),
         (CacheKey.custom ns gr mn, .customBySelector cq2 rs2)]
        (.custom ns gr tn mn labels)
        = .ambiguous (fetchOf (.customBySelector cq1 rs1)) := by
  have h3 : MatchBySelector
      [(CacheKey.custom ns gr mn, .customBySelector cq1 rs1),
       (CacheKey.custom ns gr mn, .customBySelector cq2 rs2)] ns gr mn labels
      = .ambiguous (.customBySelector cq1 rs1) := by
    simp [MatchBySelector, customMatches, entrySelectorMatches, hm1, hm2]
  refine ⟨by simp [deriveEntry, hmn], by simp [deriveEntry, hmn], h3, by simp [h3], ?_⟩
  simp [Resolve, GetByKey, h3]

/-- Witness for claim C4 at concrete conflicting declarations. -/
theorem matchBySelector_conflict_witness :
    MatchBySelector
        [(CacheKey.custom "default" ⟨"apps", "deployments"⟩ "cpu",
            .customBySelector "Q1" [("app", "web")]),
         (CacheKey.custom "default" ⟨"apps", "deployments"⟩ "cpu",
            .customBySelector "Q2" [])] "default" ⟨"apps", "deployments"⟩ "cpu"
        [("app", "web")]
        = .ambiguous (.customBySelector "Q1" [("app", "web")])
    ∧ Resolve
        [(CacheKey.custom "default" ⟨"apps", "deployments"⟩ "cpu",
            .customBySelector "Q1" [("app", "web")]),
         (CacheKey.custom "default" ⟨"apps", "deployments"⟩ "cpu",
            .customBySelector "Q2" [])]
        (.custom "default" ⟨"apps", "deployments"⟩ "pod-1" "cpu" [("app", "web")])
        = .ambiguous (fetchOf (.customBySelector "Q1" [("app", "web")])) := by
  have h := matchBySelector_conflict_ambiguous "default" "m1" "m2" "cpu" "Q1" "Q2"
    "pod-1" ⟨"apps", "deployments"⟩ [("app", "web")] [] [("app", "web")]
    (by decide) (by decide) (by decide)
  exact ⟨h.2.2.1, h.2.2.2.2⟩

/-- Claim C2 counterexample: `src/main.go` creates no happens-before edge
from the completion of the controller's initial synchronization to the metric
server accepting queries — `go controller.Run(2, time.Second, stopCh)` (line
47) is never joined before `cmd.Run(stopCh)` (line 51) — so it is not the
case that every schedule the program permits orders `initialSyncDone` before
`acceptQuery`: `coldStartSchedule` is permitted and violates the ordering. -/
theorem startup_no_sync_barrier_cex :
    ¬ (∀ s : List StartupEv, validStartupSchedule s = true →
        eventBefore s .initialSyncDone .acceptQuery = true) := fun hall =>
  absurd (hall coldStartSchedule (by decide)) (by decide)

/-- Claim C2 amended: `src/main.go` starts the controller (and with it the
initial full synchronization) concurrently with the metric server and waits
for neither; both orders of `initialSyncDone` and `acceptQuery` are permitted
schedules, so a query may be accepted before the initial synchronization
completes (a cold-start NotFound is possible). -/
theorem startup_sync_unordered :
    validStartupSchedule coldStartSchedule = true
    ∧ eventBefore coldStartSchedule .acceptQuery .initialSyncDone = true
    ∧ validStartupSchedule warmStartSchedule = true
    ∧ eventBefore warmStartSchedule .initialSyncDone .acceptQuery = true := by
  decide

/-- Claim C3 counterexample: `main` starts the controller with
`controller.Run(2, time.Second, stopCh)` (`src/main.go` line 47), i.e. two
concurrent notification-processing workers, not one; since the controller's
workers are what perform the cache writes, write processing is not
single-threaded and the bound on simultaneously in-flight cache writes is the
worker count 2, not 1. -/
theorem single_writer_cex :
    controllerWorkers mainBody = 2 ∧ ¬ controllerWorkers mainBody ≤ 1 := by
  decide

/-- Claim C3 amended: all cache mutation is funneled through a single
collaborator — the controller handler is the only collaborator receiving the
cache with write access — but `main` runs the controller with 2 concurrent
workers, so up to two notification-processing workers may have cache writes
in flight at once; serialization of those writes is left to the cache's
internal synchronization rather than to a single-writer loop. -/
theorem controller_two_workers :
    cacheWriters mainBody = [.controllerHandler]
    ∧ controllerWorkers mainBody = 2 := by
  decide

/-- First declaration of the claim-C8 scenario: targets `podA`. -/
def declPodA : CustomMetricDeclaration :=
  ⟨"default", "cm-a", ⟨"apps", "deployments"⟩, .byName "podA", "cpu", "QA"⟩

/-- Second declaration of the claim-C8 scenario: identical to `declPodA`
except for the target name `podB` (and the object name and cloud query used
to tell the two derived entries apart). -/
def declPodB : CustomMetricDeclaration :=
  ⟨"default", "cm-b", ⟨"apps", "deployments"⟩, .byName "podB", "cpu", "QB"⟩

/-- Claim C8 counterexample: the custom cache key is (namespace,
targetGroupResource, metricName) and does not include the target name, so
two declarations differing only by targetName have the same key — they do
collide: upserting both leaves only the later entry, and a Delete computed
from either declaration's identity removes the single shared entry, so the
other declaration's entry does not survive. -/
theorem custom_key_collision_cex :
    keyOf (.custom declPodA) = keyOf (.custom declPodB)
    ∧ GetByKey (reconcile NewMetricCache
          [⟨.added, .custom declPodA⟩, ⟨.added, .custom declPodB⟩])
        (keyOf (.custom declPodA)) = some (.customByName "QB" "podB")
    ∧ GetByKey (Remove (reconcile NewMetricCache
          [⟨.added, .custom declPodA⟩, ⟨.added, .custom declPodB⟩])
          (keyOf (.custom declPodA)))
        (keyOf (.custom declPodB)) = none := by
  decide

/-- Claim C8 amended: two CustomMetricDeclarations differing only by
targetName share one cache key; reconciling both Added events leaves exactly
one entry — the later writer's — under the shared key, and removing by that
shared key empties the cache, affecting both declarations at once. -/
theorem custom_key_shared_last_writer :
    keyOf (.custom declPodA) = keyOf (.custom declPodB)
    ∧ reconcile NewMetricCache
        [⟨.added, .custom declPodA⟩, ⟨.added, .custom declPodB⟩]
        = [(keyOf (.custom declPodA), .customByName "QB" "podB")]
    ∧ Remove (reconcile NewMetricCache
        [⟨.added, .custom declPodA⟩, ⟨.added, .custom declPodB⟩])
        (keyOf (.custom declPodB)) = [] := by
  decide

/-- Claim C9: `main` allocates exactly one metric cache
(`metriccache.NewMetricCache()`, `src/main.go` line 42), the constructed
cache is empty, and the reference is handed to exactly the two collaborators
`controller.NewHandler` (lines 90–92) and `provider.NewAzureProvider`
(line 74) at construction time; the transcribed step list contains no other
step that could reach the cache, matching the absence of any ambient or
static access path in the source. -/
theorem metric_cache_wiring :
    cacheAllocCount mainBody = 1
    ∧ NewMetricCache = ([] : Cache)
    ∧ cacheRecipients mainBody = [.controllerHandler, .azureProvider]
    ∧ (cacheRecipients mainBody).length = 2 := by
  decide

/-- Claim C10: `getDefaultSubscriptionID` returns the `SUBSCRIPTION_ID`
environment value whenever it is non-empty (with no logs and no instance
metadata lookup); only when it is empty does it consult instance metadata,
taking the returned config's subscription id even when the lookup fails —
the error is only logged; the function never emits a fatal log (it returns
rather than terminating the process), and an empty final result only adds
the "not set" informational log. -/
theorem getDefaultSubscriptionID_spec (env : SubIDEnv) :
    (env.envSubscriptionID ≠ "" →
        getDefaultSubscriptionID env = (env.envSubscriptionID, []))
    ∧ (env.envSubscriptionID = "" →
        (getDefaultSubscriptionID env).1 = env.azureConfigResult.1.subscriptionID
        ∧ LogEvent.infoLookupViaInstanceMetadata ∈ (getDefaultSubscriptionID env).2
        ∧ ∀ m, env.azureConfigResult.2 = some m →
            LogEvent.errorUnableToGetAzureConfig m ∈ (getDefaultSubscriptionID env).2)
    ∧ (∀ m, LogEvent.fatal m ∉ (getDefaultSubscriptionID env).2)
    ∧ ((getDefaultSubscriptionID env).1 = "" →
        LogEvent.infoSubscriptionNotSet ∈ (getDefaultSubscriptionID env).2) := by
  by_cases he : env.envSubscriptionID = ""
  · by_cases hc : env.azureConfigResult.1.subscriptionID = ""
    · cases herr : env.azureConfigResult.2 with
      | none => simp [getDefaultSubscriptionID, he, hc, herr]
      | some m => simp [getDefaultSubscriptionID, he, hc, herr]
    · cases herr : env.azureConfigResult.2 with
      | none => simp [getDefaultSubscriptionID, he, hc, herr]
      | some m => simp [getDefaultSubscriptionID, he, hc, herr]
  · simp [getDefaultSubscriptionID, he]

/-- Environment of the claim-C10 witness in which `SUBSCRIPTION_ID` is set. -/
def envFromVar : SubIDEnv := ⟨"sub-from-env", (⟨"ignored"⟩, none)⟩

/-- Environment of the claim-C10 witness in which `SUBSCRIPTION_ID` is unset
and the instance-metadata lookup fails with a zero-value config. -/
def envFromIMDS : SubIDEnv := ⟨"", (⟨""⟩, some "imds unavailable")⟩

/-- Witness for claim C10 at concrete environments. -/
theorem getDefaultSubscriptionID_spec_witness :
    getDefaultSubscriptionID envFromVar = ("sub-from-env", [])
    ∧ (getDefaultSubscriptionID envFromIMDS).1 = ""
    ∧ LogEvent.errorUnableToGetAzureConfig "imds unavailable"
        ∈ (getDefaultSubscriptionID envFromIMDS).2
    ∧ LogEvent.infoSubscriptionNotSet ∈ (getDefaultSubscriptionID envFromIMDS).2 := by
  refine ⟨(getDefaultSubscriptionID_spec envFromVar).1 (by decide), ?_, ?_, ?_⟩
  · exact ((getDefaultSubscriptionID_spec envFromIMDS).2.1 rfl).1
  · exact ((getDefaultSubscriptionID_spec envFromIMDS).2.1 rfl).2.2 "imds unavailable" rfl
  · exact (getDefaultSubscriptionID_spec envFromIMDS).2.2.2
      ((getDefaultSubscriptionID_spec envFromIMDS).2.1 rfl).1

end Adapter
